import Mathlib

/-!
Verification of the ToDo backend (FastAPI + SQLAlchemy, two tables
`tasks` and `dones`) against its natural-language specification.

The embedding below translates, from the source:
  * api/models/task.py      — the two table rows (Models.Task, the dones row id),
  * api/cruds/task.py       — create_task, get_task, update_task, delete_task,
                              get_tasks_with_done,
  * api/cruds/done.py       — get_done, create_done, delete_done,
  * api/routers/task.py     — list_tasks, create_task, update_task, delete_task,
  * api/routers/done.py     — mark_task_as_done, remove_task_as_done,
  * api/schemas/task.py     — TaskBase/TaskCreate/TaskCreateResponse/Task.

The database is modelled as explicit state (DbState); each HTTP handler is a
function from state to response × state.  The id column of `tasks` is a
PostgreSQL SERIAL (api/migrate_db.py creates the schema), modelled by the
`nextId` counter; `dones.id` is a primary key and a foreign key into
`tasks.id` (api/models/task.py, class Done), and `cascade="all, delete"` on
Task.done removes the dones row when its task is deleted.
-/

namespace ToDoApp

/-- A calendar date as stored in the `tasks.due_date` column
(Python `datetime.date`, PostgreSQL `DATE`). -/
structure Date where
  year : Nat
  month : Nat
  day : Nat
deriving DecidableEq, Repr

namespace Models

/-- A row of the `tasks` table (api/models/task.py, class Task):
`id` integer primary key (SERIAL), `title` optional string,
`due_date` optional date. -/
structure Task where
  id : Nat
  title : Option String
  due_date : Option Date
deriving DecidableEq, Repr

end Models

/-- The database: the `tasks` rows in insertion order, the `dones` rows
(each row is just its integer id, api/models/task.py class Done), and the
next value of the `tasks.id` SERIAL sequence. -/
structure DbState where
  tasks : List Models.Task
  dones : List Nat
  nextId : Nat
deriving DecidableEq, Repr

/-- The ids of all existing task rows. -/
def taskIds (db : DbState) : List Nat :=
  db.tasks.map Models.Task.id

namespace Schemas

/-- api/schemas/task.py, TaskBase/TaskCreate: optional title, optional
due_date; an omitted field defaults to None. -/
structure TaskCreate where
  title : Option String
  due_date : Option Date
deriving DecidableEq, Repr

/-- api/schemas/task.py, TaskCreateResponse: id plus the two TaskBase
fields, returned by POST /tasks and PUT /tasks/{task_id}. -/
structure TaskCreateResponse where
  id : Nat
  title : Option String
  due_date : Option Date
deriving DecidableEq, Repr

/-- api/schemas/task.py, Task: the GET /tasks response element
(id, title, done flag, due_date; done defaults to False and due_date to
None when the serialized object lacks the attribute). -/
structure Task where
  id : Nat
  title : Option String
  done : Bool
  due_date : Option Date
deriving DecidableEq, Repr

/-- api/schemas/done.py, DoneResponse: the PUT /tasks/{task_id}/done
response body. -/
structure DoneResponse where
  id : Nat
deriving DecidableEq, Repr

end Schemas

/-- Outcome of one HTTP request: a 200 body, a raised
HTTPException(status_code, detail), or an uncaught store error that the
framework turns into a generic server error (HTTP 500). -/
inductive ApiResult (α : Type) where
  | ok (body : α)
  | httpError (status : Nat) (detail : String)
  | serverError
deriving DecidableEq, Repr

/-- The HTTP status code of a response. -/
def ApiResult.statusCode {α : Type} : ApiResult α → Nat
  | .ok _ => 200
  | .httpError s _ => s
  | .serverError => 500

namespace Cruds.Task

/-- api/cruds/task.py, create_task: insert a row whose id is drawn from the
`tasks.id` sequence, commit, refresh, and return the stored row. -/
def create_task (db : DbState) (task_create : Schemas.TaskCreate) :
    Models.Task × DbState :=
  let task : Models.Task :=
    { id := db.nextId, title := task_create.title,
      due_date := task_create.due_date }
  (task,
   { tasks := db.tasks ++ [task], dones := db.dones, nextId := db.nextId + 1 })

/-- api/cruds/task.py, get_task: SELECT the first `tasks` row with the given
id; None when no row matches. -/
def get_task (db : DbState) (task_id : Nat) : Option Models.Task :=
  db.tasks.find? (fun t => t.id == task_id)

/-- api/cruds/task.py, update_task: overwrite title and due_date of the
already-fetched row `original`, commit, and return the row. -/
def update_task (db : DbState) (task_create : Schemas.TaskCreate)
    (original : Models.Task) : Models.Task × DbState :=
  let updated : Models.Task :=
    { id := original.id, title := task_create.title,
      due_date := task_create.due_date }
  (updated,
   { db with
      tasks := db.tasks.map (fun t => if t.id == original.id then updated else t) })

/-- api/cruds/task.py, delete_task: delete the already-fetched row; the
`cascade="all, delete"` on Task.done (api/models/task.py) also deletes the
matching `dones` row. -/
def delete_task (db : DbState) (original : Models.Task) : DbState :=
  { db with
     tasks := db.tasks.filter (fun t => t.id != original.id),
     dones := db.dones.filter (fun d => d != original.id) }

/-- api/cruds/task.py, get_tasks_with_done: the query
SELECT tasks.id, tasks.title, dones.id IS NOT NULL AS done
FROM tasks LEFT OUTER JOIN dones ON tasks.id = dones.id,
rows in table order. -/
def get_tasks_with_done (db : DbState) : List (Nat × Option String × Bool) :=
  db.tasks.flatMap (fun t =>
    match db.dones.filter (fun d => d == t.id) with
    | [] => [(t.id, t.title, false)]
    | ms => ms.map (fun _ => (t.id, t.title, true)))

end Cruds.Task

namespace Cruds.Done

/-- api/cruds/done.py, get_done: SELECT the first `dones` row with the given
id; None when no row matches. -/
def get_done (db : DbState) (task_id : Nat) : Option Nat :=
  db.dones.find? (fun d => d == task_id)

/-- A constraint violation raised by the database on INSERT INTO dones:
`dones.id` is a foreign key into `tasks.id` and the table's primary key
(api/models/task.py, class Done). -/
inductive StoreError where
  | foreignKeyViolation
  | primaryKeyViolation
deriving DecidableEq, Repr

/-- api/cruds/done.py, create_done: INSERT INTO dones the row id = task_id
and commit.  The database rejects the insert when no `tasks` row with that
id exists (foreign key) or when a `dones` row already does (primary key);
no code in the repository catches the error, so it propagates and the
transaction is rolled back. -/
def create_done (db : DbState) (task_id : Nat) :
    Except StoreError (Nat × DbState) :=
  if db.tasks.all (fun t => t.id != task_id) then
    Except.error StoreError.foreignKeyViolation
  else if db.dones.contains task_id then
    Except.error StoreError.primaryKeyViolation
  else
    Except.ok (task_id, { db with dones := db.dones ++ [task_id] })

/-- api/cruds/done.py, delete_done: delete the already-fetched `dones` row
and commit. -/
def delete_done (db : DbState) (original : Nat) : DbState :=
  { db with dones := db.dones.filter (fun d => d != original) }

end Cruds.Done

namespace Routers.Task

/-- api/routers/task.py, list_tasks (GET /tasks): return
get_tasks_with_done(db); FastAPI serializes each result row through
response_model list[Schemas.Task].  A row carries attributes id, title and
done but no due_date, so Pydantic fills the due_date field with its
declared default None. -/
def list_tasks (db : DbState) : ApiResult (List Schemas.Task) × DbState :=
  (ApiResult.ok ((Cruds.Task.get_tasks_with_done db).map (fun r =>
      { id := r.1, title := r.2.1, done := r.2.2, due_date := none })),
   db)

/-- api/routers/task.py, create_task (POST /tasks), after body validation:
insert through the crud and answer 200 with the new row as
TaskCreateResponse. -/
def create_task (db : DbState) (task_body : Schemas.TaskCreate) :
    ApiResult Schemas.TaskCreateResponse × DbState :=
  let r := Cruds.Task.create_task db task_body
  (ApiResult.ok { id := r.1.id, title := r.1.title, due_date := r.1.due_date },
   r.2)

/-- api/routers/task.py, update_task (PUT /tasks/task_id), after body
validation: look the task up, raise 404 "task not found" when absent, else
overwrite both fields and answer 200 with the updated row. -/
def update_task (db : DbState) (task_id : Nat)
    (task_body : Schemas.TaskCreate) :
    ApiResult Schemas.TaskCreateResponse × DbState :=
  match Cruds.Task.get_task db task_id with
  | none => (ApiResult.httpError 404 "task not found", db)
  | some task =>
    let r := Cruds.Task.update_task db task_body task
    (ApiResult.ok { id := r.1.id, title := r.1.title, due_date := r.1.due_date },
     r.2)

/-- api/routers/task.py, delete_task (DELETE /tasks/task_id): look the task
up, raise 404 "Task not found" when absent, else delete it (the cascade
removes its dones row) and answer with an empty 200 body. -/
def delete_task (db : DbState) (task_id : Nat) :
    ApiResult Unit × DbState :=
  match Cruds.Task.get_task db task_id with
  | none => (ApiResult.httpError 404 "Task not found", db)
  | some task => (ApiResult.ok (), Cruds.Task.delete_task db task)

end Routers.Task

namespace Routers.Done

/-- api/routers/done.py, mark_task_as_done (PUT /tasks/task_id/done): when a
dones row already exists raise 400 "Done already exists"; otherwise call
create_done.  The handler performs no task-existence lookup; a constraint
violation raised by the store propagates uncaught (generic server error)
and the session is rolled back. -/
def mark_task_as_done (db : DbState) (task_id : Nat) :
    ApiResult Schemas.DoneResponse × DbState :=
  match Cruds.Done.get_done db task_id with
  | some _ => (ApiResult.httpError 400 "Done already exists", db)
  | none =>
    match Cruds.Done.create_done db task_id with
    | Except.ok r => (ApiResult.ok { id := r.1 }, r.2)
    | Except.error _ => (ApiResult.serverError, db)

/-- api/routers/done.py, remove_task_as_done (DELETE /tasks/task_id/done):
when no dones row exists raise 404 "Done not found"; otherwise delete the
fetched row and answer with an empty 200 body. -/
def remove_task_as_done (db : DbState) (task_id : Nat) :
    ApiResult Unit × DbState :=
  match Cruds.Done.get_done db task_id with
  | none => (ApiResult.httpError 404 "Done not found", db)
  | some done => (ApiResult.ok (), Cruds.Done.delete_done db done)

end Routers.Done

/-- Is this character an ASCII decimal digit? -/
def isDig (c : Char) : Bool :=
  '0' ≤ c && c ≤ '9'

/-- Numeric value of an ASCII decimal digit. -/
def digitVal (c : Char) : Nat :=
  c.toNat - '0'.toNat

/-- Gregorian leap-year rule, as used by Python's datetime module. -/
def isLeapYear (y : Nat) : Bool :=
  (y % 4 == 0 && y % 100 != 0) || y % 400 == 0

/-- Number of days in a month of the proleptic Gregorian calendar. -/
def daysInMonth (y m : Nat) : Nat :=
  if m == 2 then (if isLeapYear y then 29 else 28)
  else if m == 4 || m == 6 || m == 9 || m == 11 then 30
  else 31

/-- Is (y, m, d) a real calendar date? -/
def isValidDate (y m d : Nat) : Bool :=
  1 ≤ m && m ≤ 12 && 1 ≤ d && d ≤ daysInMonth y m

/-- Pydantic v2 validation of a JSON string against the `datetime.date`
annotation of TaskBase.due_date (api/schemas/task.py): exactly the strict
ten-character form YYYY-MM-DD (four digits, hyphen, two digits, hyphen, two
digits) naming a real calendar date; every other string fails validation. -/
def parseDate (s : String) : Option Date :=
  match s.data with
  | [y1, y2, y3, y4, h1, m1, m2, h2, d1, d2] =>
    if isDig y1 && isDig y2 && isDig y3 && isDig y4 &&
       h1 == '-' && isDig m1 && isDig m2 && h2 == '-' &&
       isDig d1 && isDig d2 then
      if isValidDate
          (((digitVal y1 * 10 + digitVal y2) * 10 + digitVal y3) * 10
            + digitVal y4)
          (digitVal m1 * 10 + digitVal m2)
          (digitVal d1 * 10 + digitVal d2) then
        some { year := (((digitVal y1 * 10 + digitVal y2) * 10 + digitVal y3)
                          * 10 + digitVal y4),
               month := digitVal m1 * 10 + digitVal m2,
               day := digitVal d1 * 10 + digitVal d2 }
      else none
    else none
  | _ => none

/-- The strict shape that parseDate accepts: ten characters, digits except
for hyphens at positions 4 and 7, naming a real calendar date. -/
def strictDateFormat (s : String) : Bool :=
  match s.data with
  | [y1, y2, y3, y4, h1, m1, m2, h2, d1, d2] =>
    isDig y1 && isDig y2 && isDig y3 && isDig y4 &&
    h1 == '-' && isDig m1 && isDig m2 && h2 == '-' &&
    isDig d1 && isDig d2 &&
    isValidDate
      (((digitVal y1 * 10 + digitVal y2) * 10 + digitVal y3) * 10 + digitVal y4)
      (digitVal m1 * 10 + digitVal m2)
      (digitVal d1 * 10 + digitVal d2)
  | _ => false

/-- A JSON request body for POST /tasks and PUT /tasks/task_id before
validation: the title as sent, and the due_date exactly as the raw JSON
string when present. -/
structure TaskBodyRaw where
  title : Option String
  due_date : Option String
deriving DecidableEq, Repr

/-- FastAPI body validation against Schemas.TaskCreate: an absent field
takes its default None; a present due_date string must parse as a strict
calendar date, else the whole body is rejected (HTTP 422) before any
handler or store code runs. -/
def validate_task_body (b : TaskBodyRaw) : Option Schemas.TaskCreate :=
  match b.due_date with
  | none => some { title := b.title, due_date := none }
  | some s =>
    match parseDate s with
    | some d => some { title := b.title, due_date := some d }
    | none => none

/-- POST /tasks as served: validate the body (422 with the store untouched
on failure), then run Routers.Task.create_task. -/
def handle_post_tasks (db : DbState) (body : TaskBodyRaw) :
    ApiResult Schemas.TaskCreateResponse × DbState :=
  match validate_task_body body with
  | none => (ApiResult.httpError 422 "validation error", db)
  | some task_body => Routers.Task.create_task db task_body

/-- PUT /tasks/task_id as served: validate the body (422 with the store
untouched on failure), then run Routers.Task.update_task. -/
def handle_put_task (db : DbState) (task_id : Nat) (body : TaskBodyRaw) :
    ApiResult Schemas.TaskCreateResponse × DbState :=
  match validate_task_body body with
  | none => (ApiResult.httpError 422 "validation error", db)
  | some task_body => Routers.Task.update_task db task_id task_body

/-- One API call, the five state-touching routes of the service. -/
inductive Op where
  | postTask (body : TaskBodyRaw)
  | putTask (task_id : Nat) (body : TaskBodyRaw)
  | deleteTask (task_id : Nat)
  | markDone (task_id : Nat)
  | unmarkDone (task_id : Nat)
deriving DecidableEq, Repr

/-- The database state after serving one API call. -/
def step (db : DbState) (op : Op) : DbState :=
  match op with
  | Op.postTask b => (handle_post_tasks db b).2
  | Op.putTask i b => (handle_put_task db i b).2
  | Op.deleteTask i => (Routers.Task.delete_task db i).2
  | Op.markDone i => (Routers.Done.mark_task_as_done db i).2
  | Op.unmarkDone i => (Routers.Done.remove_task_as_done db i).2

/-- The empty database right after api/migrate_db.py reset_database:
no rows, the id sequence at 1. -/
def initState : DbState :=
  { tasks := [], dones := [], nextId := 1 }

/-- Serve a sequence of API calls from a given state. -/
def runFrom (db : DbState) (ops : List Op) : DbState :=
  ops.foldl step db

/-- Serve a sequence of API calls from the freshly migrated database. -/
def run (ops : List Op) : DbState :=
  runFrom initState ops

/-- Does this call succeed (HTTP 200) as a mark-done of the given id? -/
def succMark (db : DbState) (op : Op) (id : Nat) : Bool :=
  match op with
  | Op.markDone j =>
      j == id && (Routers.Done.mark_task_as_done db j).1.statusCode == 200
  | _ => false

/-- Does this call succeed (HTTP 200) as an unmark-done of the given id? -/
def succUnmark (db : DbState) (op : Op) (id : Nat) : Bool :=
  match op with
  | Op.unmarkDone j =>
      j == id && (Routers.Done.remove_task_as_done db j).1.statusCode == 200
  | _ => false

/-- Does this call succeed (HTTP 200) as a task deletion of the given id? -/
def succDeleteTask (db : DbState) (op : Op) (id : Nat) : Bool :=
  match op with
  | Op.deleteTask j =>
      j == id && (Routers.Task.delete_task db j).1.statusCode == 200
  | _ => false

/-- No unmark-done call in the sequence succeeds for this id. -/
def noSuccUnmark (db : DbState) (ops : List Op) (id : Nat) : Bool :=
  match ops with
  | [] => true
  | op :: rest => !succUnmark db op id && noSuccUnmark (step db op) rest id

/-- No task deletion in the sequence succeeds for this id. -/
def noSuccDeleteTask (db : DbState) (ops : List Op) (id : Nat) : Bool :=
  match ops with
  | [] => true
  | op :: rest =>
      !succDeleteTask db op id && noSuccDeleteTask (step db op) rest id

/-- Some call of the sequence is a mark-done of this id that succeeds, and
no later unmark-done of this id succeeds: the wording of the spec's
listing property. -/
def markedNotUnmarked (db : DbState) (ops : List Op) (id : Nat) : Bool :=
  match ops with
  | [] => false
  | op :: rest =>
      (succMark db op id && noSuccUnmark (step db op) rest id) ||
      markedNotUnmarked (step db op) rest id

/-- Some call of the sequence is a mark-done of this id that succeeds, and
afterwards neither an unmark-done nor a task deletion of this id succeeds. -/
def markedClean (db : DbState) (ops : List Op) (id : Nat) : Bool :=
  match ops with
  | [] => false
  | op :: rest =>
      (succMark db op id && noSuccUnmark (step db op) rest id &&
        noSuccDeleteTask (step db op) rest id) ||
      markedClean (step db op) rest id

/-! ## Basic lookup lemmas -/

theorem get_done_eq_none_iff (db : DbState) (i : Nat) :
    Cruds.Done.get_done db i = none ↔ i ∉ db.dones := by
  simp only [Cruds.Done.get_done, List.find?_eq_none, beq_iff_eq]
  constructor
  · intro h hmem
    exact h i hmem rfl
  · intro h d hd he
    exact h (he ▸ hd)

theorem get_done_eq_some (db : DbState) (i d : Nat)
    (h : Cruds.Done.get_done db i = some d) : d = i ∧ i ∈ db.dones := by
  have h0 : db.dones.find? (fun x => x == i) = some d := h
  have h1 := List.find?_some h0
  have h2 : d ∈ db.dones := List.mem_of_find?_eq_some h0
  have h3 : d = i := by simpa using h1
  exact ⟨h3, h3 ▸ h2⟩

theorem get_task_eq_none_iff (db : DbState) (i : Nat) :
    Cruds.Task.get_task db i = none ↔ i ∉ taskIds db := by
  simp only [Cruds.Task.get_task, List.find?_eq_none, beq_iff_eq, taskIds,
    List.mem_map, not_exists]
  constructor
  · intro h t ⟨ht, he⟩
    exact h t ht he
  · intro h t ht he
    exact h t ⟨ht, he⟩

theorem get_task_eq_some (db : DbState) (i : Nat) (t : Models.Task)
    (h : Cruds.Task.get_task db i = some t) : t.id = i ∧ t ∈ db.tasks := by
  have h0 : db.tasks.find? (fun u => u.id == i) = some t := h
  have h1 := List.find?_some h0
  exact ⟨by simpa using h1, List.mem_of_find?_eq_some h0⟩

theorem tasks_all_ne_iff (db : DbState) (i : Nat) :
    db.tasks.all (fun t => t.id != i) = true ↔ i ∉ taskIds db := by
  simp only [List.all_eq_true, bne_iff_ne, ne_eq, taskIds, List.mem_map,
    not_exists]
  constructor
  · intro h t ⟨ht, he⟩
    exact h t ht he
  · intro h t ht he
    exact h t ⟨ht, he⟩

theorem dones_contains_iff (db : DbState) (i : Nat) :
    db.dones.contains i = true ↔ i ∈ db.dones := by
  simp [List.contains]

/-- In a state where task `i` exists and no dones row for `i` does,
create_done inserts the dones row and returns its id. -/
theorem create_done_ok (db : DbState) (i : Nat)
    (htask : i ∈ taskIds db) (hdone : i ∉ db.dones) :
    Cruds.Done.create_done db i =
      Except.ok (i, { db with dones := db.dones ++ [i] }) := by
  unfold Cruds.Done.create_done
  rw [if_neg, if_neg]
  · intro hc
    exact hdone ((dones_contains_iff db i).mp hc)
  · intro hall
    exact (tasks_all_ne_iff db i).mp hall htask

/-! ## Claim theorems: the done marking/unmarking API -/

/-- Claim C2: for a task id whose Task row exists and with no Done row
present, PUT /tasks/id/done answers 200 with body id; repeating the
call on the resulting state answers 400 "Done already exists" and leaves
both stores unchanged. -/
theorem c2_mark_done_twice (db : DbState) (task_id : Nat) (t : Models.Task)
    (htask : Cruds.Task.get_task db task_id = some t)
    (hdone : Cruds.Done.get_done db task_id = none) :
    (Routers.Done.mark_task_as_done db task_id).1 =
      ApiResult.ok { id := task_id } ∧
    (Routers.Done.mark_task_as_done db task_id).1.statusCode = 200 ∧
    (Routers.Done.mark_task_as_done
        (Routers.Done.mark_task_as_done db task_id).2 task_id).1 =
      ApiResult.httpError 400 "Done already exists" ∧
    (Routers.Done.mark_task_as_done
        (Routers.Done.mark_task_as_done db task_id).2 task_id).2 =
      (Routers.Done.mark_task_as_done db task_id).2 := by
  have hmem : task_id ∈ taskIds db := by
    rcases get_task_eq_some db task_id t htask with ⟨hid, hmem⟩
    exact hid ▸ List.mem_map_of_mem Models.Task.id hmem
  have hnot : task_id ∉ db.dones := (get_done_eq_none_iff db task_id).mp hdone
  have hcreate := create_done_ok db task_id hmem hnot
  have hfirst : Routers.Done.mark_task_as_done db task_id =
      (ApiResult.ok { id := task_id },
       { db with dones := db.dones ++ [task_id] }) := by
    unfold Routers.Done.mark_task_as_done
    rw [hdone, hcreate]
  have hfind : Cruds.Done.get_done
      { db with dones := db.dones ++ [task_id] } task_id = some task_id := by
    unfold Cruds.Done.get_done at hdone ⊢
    rw [List.find?_append, hdone]
    simp
  have hsecond : Routers.Done.mark_task_as_done
      { db with dones := db.dones ++ [task_id] } task_id =
      (ApiResult.httpError 400 "Done already exists",
       { db with dones := db.dones ++ [task_id] }) := by
    unfold Routers.Done.mark_task_as_done
    rw [hfind]
  rw [hfirst]
  exact ⟨rfl, rfl, by rw [hsecond], by rw [hsecond]⟩

/-- Claim C2 witness: a concrete state with task 1 present and not done. -/
theorem c2_mark_done_twice_witness :
    Cruds.Task.get_task (run [Op.postTask { title := some "a", due_date := none }]) 1 =
      some { id := 1, title := some "a", due_date := none } ∧
    Cruds.Done.get_done (run [Op.postTask { title := some "a", due_date := none }]) 1 = none ∧
    (Routers.Done.mark_task_as_done
        (run [Op.postTask { title := some "a", due_date := none }]) 1).1 =
      ApiResult.ok { id := 1 } := by
  refine ⟨by decide, by decide, ?_⟩
  exact (c2_mark_done_twice (run [Op.postTask { title := some "a", due_date := none }]) 1
    { id := 1, title := some "a", due_date := none } (by decide) (by decide)).1

/-- Claim C3: when a Done row exists for the id, DELETE /tasks/id/done
answers 200 with an empty body and removes the Done row (tasks untouched);
repeating the call answers 404 "Done not found" and changes nothing. -/
theorem c3_unmark_done_twice (db : DbState) (task_id d : Nat)
    (hdone : Cruds.Done.get_done db task_id = some d) :
    (Routers.Done.remove_task_as_done db task_id).1 = ApiResult.ok () ∧
    (Routers.Done.remove_task_as_done db task_id).2.tasks = db.tasks ∧
    task_id ∉ (Routers.Done.remove_task_as_done db task_id).2.dones ∧
    (Routers.Done.remove_task_as_done
        (Routers.Done.remove_task_as_done db task_id).2 task_id).1 =
      ApiResult.httpError 404 "Done not found" ∧
    (Routers.Done.remove_task_as_done
        (Routers.Done.remove_task_as_done db task_id).2 task_id).2 =
      (Routers.Done.remove_task_as_done db task_id).2 := by
  rcases get_done_eq_some db task_id d hdone with ⟨hd, _⟩
  rw [hd] at hdone
  have hfirst : Routers.Done.remove_task_as_done db task_id =
      (ApiResult.ok (), Cruds.Done.delete_done db task_id) := by
    unfold Routers.Done.remove_task_as_done
    rw [hdone]
  have hnot : task_id ∉ (Cruds.Done.delete_done db task_id).dones := by
    intro hmem
    unfold Cruds.Done.delete_done at hmem
    simp only [List.mem_filter, bne_iff_ne] at hmem
    exact hmem.2 rfl
  have hnone :
      Cruds.Done.get_done (Cruds.Done.delete_done db task_id) task_id = none :=
    (get_done_eq_none_iff _ task_id).mpr hnot
  have hsecond : Routers.Done.remove_task_as_done
      (Cruds.Done.delete_done db task_id) task_id =
      (ApiResult.httpError 404 "Done not found",
       Cruds.Done.delete_done db task_id) := by
    unfold Routers.Done.remove_task_as_done
    rw [hnone]
  rw [hfirst]
  exact ⟨rfl, rfl, hnot, by rw [hsecond], by rw [hsecond]⟩

/-- Claim C3 witness: a concrete state with a Done row for id 1. -/
theorem c3_unmark_done_twice_witness :
    Cruds.Done.get_done
      (run [Op.postTask { title := some "a", due_date := none }, Op.markDone 1]) 1 =
        some 1 ∧
    (Routers.Done.remove_task_as_done
        (run [Op.postTask { title := some "a", due_date := none }, Op.markDone 1]) 1).1 =
      ApiResult.ok () := by
  refine ⟨by decide, ?_⟩
  exact (c3_unmark_done_twice
    (run [Op.postTask { title := some "a", due_date := none }, Op.markDone 1]) 1 1
    (by decide)).1

/-- Claim C5: when no Task row with the id exists, PUT /tasks/id leaves the
database unchanged (no row created or altered); with a body that passes
validation the answer is 404 "task not found". -/
theorem c5_update_absent_404 (db : DbState) (task_id : Nat) (body : TaskBodyRaw)
    (h : Cruds.Task.get_task db task_id = none) :
    (handle_put_task db task_id body).2 = db ∧
    ∀ tb, validate_task_body body = some tb →
      (handle_put_task db task_id body).1 =
        ApiResult.httpError 404 "task not found" := by
  cases hv : validate_task_body body with
  | none => simp [handle_put_task, hv]
  | some tb =>
    constructor
    · simp [handle_put_task, hv, Routers.Task.update_task, h]
    · intro tb2 hv2
      simp [handle_put_task, hv, Routers.Task.update_task, h]

/-- Claim C5 witness: updating id 5 in the empty database. -/
theorem c5_update_absent_404_witness :
    Cruds.Task.get_task initState 5 = none ∧
    (handle_put_task initState 5 { title := some "x", due_date := none }).2 =
      initState ∧
    (handle_put_task initState 5 { title := some "x", due_date := none }).1 =
      ApiResult.httpError 404 "task not found" := by
  have h := c5_update_absent_404 initState 5
    { title := some "x", due_date := none } (by decide)
  exact ⟨by decide, h.1, h.2 { title := some "x", due_date := none } (by decide)⟩

/-- Claim C9: starting from the empty store, POST /tasks with a title and no
due_date answers 200 with id 1, and GET /tasks then lists exactly one
entry, carrying that title and done = false. -/
theorem c9_create_then_list (title : String) :
    (handle_post_tasks initState { title := some title, due_date := none }).1 =
      ApiResult.ok { id := 1, title := some title, due_date := none } ∧
    (Routers.Task.list_tasks
        (handle_post_tasks initState
          { title := some title, due_date := none }).2).1 =
      ApiResult.ok
        [{ id := 1, title := some title, done := false, due_date := none }] :=
  ⟨rfl, rfl⟩

/-- Claim C9 witness: the round trip at the concrete title "study". -/
theorem c9_create_then_list_witness :
    (handle_post_tasks initState { title := some "study", due_date := none }).1 =
      ApiResult.ok { id := 1, title := some "study", due_date := none } ∧
    (Routers.Task.list_tasks
        (handle_post_tasks initState
          { title := some "study", due_date := none }).2).1 =
      ApiResult.ok
        [{ id := 1, title := some "study", done := false, due_date := none }] :=
  c9_create_then_list "study"

/-- Claim C7: on an existing task, PUT /tasks/id (with a validated body)
answers 200 with exactly the supplied title and due_date, stores exactly
those two values on the row, leaves every other row as it was, and a body
with omitted fields validates to None fields (no partial update). -/
theorem c7_update_overwrites (db : DbState) (task_id : Nat) (t : Models.Task)
    (tb : Schemas.TaskCreate) (h : Cruds.Task.get_task db task_id = some t) :
    (Routers.Task.update_task db task_id tb).1 =
      ApiResult.ok { id := task_id, title := tb.title, due_date := tb.due_date } ∧
    Cruds.Task.get_task (Routers.Task.update_task db task_id tb).2 task_id =
      some { id := task_id, title := tb.title, due_date := tb.due_date } ∧
    (∀ u ∈ db.tasks, u.id ≠ task_id →
      u ∈ (Routers.Task.update_task db task_id tb).2.tasks) ∧
    (∀ bt : Option String,
      validate_task_body { title := bt, due_date := none } =
        some { title := bt, due_date := none }) := by
  rcases get_task_eq_some db task_id t h with ⟨hid, _⟩
  have hrouter : Routers.Task.update_task db task_id tb =
      (ApiResult.ok { id := t.id, title := tb.title, due_date := tb.due_date },
       { db with tasks := db.tasks.map (fun u =>
          if u.id == t.id then
            { id := t.id, title := tb.title, due_date := tb.due_date }
          else u) }) := by
    unfold Routers.Task.update_task Cruds.Task.update_task
    rw [h]
  have hcomp : ((fun u : Models.Task => u.id == task_id) ∘ (fun u =>
      if u.id == t.id then
        { id := t.id, title := tb.title, due_date := tb.due_date }
      else u)) = (fun u : Models.Task => u.id == task_id) := by
    funext u
    by_cases hu : u.id = t.id
    · simp [Function.comp, hu]
    · simp [Function.comp, hu]
  have hfind : Cruds.Task.get_task
      { db with tasks := db.tasks.map (fun u =>
          if u.id == t.id then
            { id := t.id, title := tb.title, due_date := tb.due_date }
          else u) } task_id =
      some { id := t.id, title := tb.title, due_date := tb.due_date } := by
    have h0 : db.tasks.find? (fun u => u.id == task_id) = some t := h
    unfold Cruds.Task.get_task
    rw [List.find?_map, hcomp, h0]
    simp
  refine ⟨?_, ?_, ?_, ?_⟩
  · rw [hrouter, hid]
  · rw [hrouter]
    refine Eq.trans hfind ?_
    rw [hid]
  · intro u hu hne
    rw [hrouter]
    have hfu : (if u.id == t.id then
        ({ id := t.id, title := tb.title, due_date := tb.due_date } :
          Models.Task)
      else u) = u := by
      have hne2 : (u.id == t.id) = false := by
        simp only [beq_eq_false_iff_ne, ne_eq, hid]
        exact hne
      rw [hne2]
      simp
    have hmm := List.mem_map_of_mem (fun v : Models.Task =>
      if v.id == t.id then
        ({ id := t.id, title := tb.title, due_date := tb.due_date } :
          Models.Task)
      else v) hu
    simp only at hmm
    rw [hfu] at hmm
    exact hmm
  · intro bt
    rfl

/-- Claim C7 witness: updating the single task of a concrete state with a
body that carries only a new title. -/
theorem c7_update_overwrites_witness :
    Cruds.Task.get_task
        (run [Op.postTask { title := some "a", due_date := some "2024-12-01" }]) 1 =
      some { id := 1, title := some "a", due_date := some { year := 2024, month := 12, day := 1 } } ∧
    (Routers.Task.update_task
        (run [Op.postTask { title := some "a", due_date := some "2024-12-01" }]) 1
        { title := some "b", due_date := none }).1 =
      ApiResult.ok { id := 1, title := some "b", due_date := none } := by
  refine ⟨by decide, ?_⟩
  exact (c7_update_overwrites
    (run [Op.postTask { title := some "a", due_date := some "2024-12-01" }]) 1
    { id := 1, title := some "a", due_date := some { year := 2024, month := 12, day := 1 } }
    { title := some "b", due_date := none } (by decide)).1

/-- Claim C10: the mark-done handler does no Task lookup: with no Done row
and no Task row for the id, it still reaches the insert, which fails on the
dones foreign key and surfaces as a generic server error with the state
rolled back; and no input whatsoever makes this handler answer 404. -/
theorem c10_mark_done_no_task_lookup (db : DbState) (task_id : Nat)
    (hdone : Cruds.Done.get_done db task_id = none)
    (htask : Cruds.Task.get_task db task_id = none) :
    (Routers.Done.mark_task_as_done db task_id).1 = ApiResult.serverError ∧
    (Routers.Done.mark_task_as_done db task_id).2 = db ∧
    ∀ (db2 : DbState) (i : Nat),
      (Routers.Done.mark_task_as_done db2 i).1.statusCode ≠ 404 := by
  have hall : db.tasks.all (fun u => u.id != task_id) = true :=
    (tasks_all_ne_iff db task_id).mpr ((get_task_eq_none_iff db task_id).mp htask)
  have hcd : Cruds.Done.create_done db task_id =
      Except.error Cruds.Done.StoreError.foreignKeyViolation := by
    unfold Cruds.Done.create_done
    simp [hall]
  have hm : Routers.Done.mark_task_as_done db task_id =
      (ApiResult.serverError, db) := by
    unfold Routers.Done.mark_task_as_done
    rw [hdone, hcd]
  refine ⟨by rw [hm], by rw [hm], ?_⟩
  intro db2 i
  unfold Routers.Done.mark_task_as_done
  cases hg : Cruds.Done.get_done db2 i with
  | some d => simp [ApiResult.statusCode]
  | none =>
    cases hc : Cruds.Done.create_done db2 i with
    | ok r => simp [ApiResult.statusCode]
    | error e => simp [ApiResult.statusCode]

/-- Claim C10 witness: marking id 7 done in the empty database. -/
theorem c10_mark_done_no_task_lookup_witness :
    Cruds.Done.get_done initState 7 = none ∧
    Cruds.Task.get_task initState 7 = none ∧
    (Routers.Done.mark_task_as_done initState 7).1 = ApiResult.serverError := by
  refine ⟨by decide, by decide, ?_⟩
  exact (c10_mark_done_no_task_lookup initState 7 (by decide) (by decide)).1

/-- A string parseDate accepts necessarily has the strict YYYY-MM-DD shape
with a real calendar date. -/
theorem parseDate_some_strict (str : String) (d : Date)
    (h : parseDate str = some d) : strictDateFormat str = true := by
  unfold parseDate at h
  unfold strictDateFormat
  split at h
  · split at h
    case isTrue hA =>
      split at h
      case isTrue hV =>
        simp [hA, hV]
      case isFalse hV => exact absurd h (by simp)
    case isFalse hA => exact absurd h (by simp)
  · exact absurd h (by simp)

/-- Claim C6: a due_date string is accepted only in strict YYYY-MM-DD form
naming a real calendar date: any body whose due_date fails to parse is
answered 422 with the database untouched; the test vectors 2024-12-32,
2024/12/01 and 20241201 all fail to parse while 2024-12-01 parses and
creates the row; and every accepted string has the strict shape. -/
theorem c6_due_date_validation (db : DbState) (title : Option String)
    (s : String) (h : parseDate s = none) :
    handle_post_tasks db { title := title, due_date := some s } =
      (ApiResult.httpError 422 "validation error", db) ∧
    parseDate "2024-12-32" = none ∧
    parseDate "2024/12/01" = none ∧
    parseDate "20241201" = none ∧
    parseDate "2024-12-01" = some { year := 2024, month := 12, day := 1 } ∧
    (handle_post_tasks db { title := title, due_date := some "2024-12-01" }).1 =
      ApiResult.ok
        { id := db.nextId, title := title, due_date := some { year := 2024, month := 12, day := 1 } } ∧
    (∀ str d, parseDate str = some d → strictDateFormat str = true) := by
  have hgood : parseDate "2024-12-01" =
      some { year := 2024, month := 12, day := 1 } := by decide
  refine ⟨?_, by decide, by decide, by decide, hgood, ?_, parseDate_some_strict⟩
  · simp [handle_post_tasks, validate_task_body, h]
  · simp [handle_post_tasks, validate_task_body, hgood,
      Routers.Task.create_task, Cruds.Task.create_task]

/-- Claim C6 witness: the rejected and accepted test vectors against the
empty database. -/
theorem c6_due_date_validation_witness :
    parseDate "2024-13-05" = none ∧
    handle_post_tasks initState
        { title := some "t", due_date := some "2024-13-05" } =
      (ApiResult.httpError 422 "validation error", initState) := by
  refine ⟨by decide, ?_⟩
  exact (c6_due_date_validation initState (some "t") "2024-13-05" (by decide)).1

/-- Claim C8 counterexample: the claim that a listing entry carries the
stored due_date fails at a reachable one-task state whose task stores
2024-12-01 while its listing entry carries none. -/
theorem c8_listing_due_date_counterexample :
    ¬ (∀ (db : DbState), ∀ t ∈ db.tasks, ∀ dt, t.due_date = some dt →
        ∀ rs, (Routers.Task.list_tasks db).1 = ApiResult.ok rs →
          ∀ e ∈ rs, e.id = t.id → e.due_date = some dt) := by
  intro hclaim
  have h := hclaim
    (run [Op.postTask { title := some "a", due_date := some "2024-12-01" }])
    { id := 1, title := some "a",
      due_date := some { year := 2024, month := 12, day := 1 } }
    (by decide)
    { year := 2024, month := 12, day := 1 } rfl
    [{ id := 1, title := some "a", done := false, due_date := none }]
    (by decide)
    { id := 1, title := some "a", done := false, due_date := none }
    (by decide) rfl
  exact absurd h (by decide)

/-- Claim C8 as amended: the GET /tasks listing never carries a stored
due_date: the listing query selects only id, title and the done flag, and
serialization through Schemas.Task fills due_date with its default None,
so every listing entry has due_date = none whatever the Task row stores. -/
theorem c8_listing_due_date_none (db : DbState) (rs : List Schemas.Task)
    (e : Schemas.Task) (h1 : (Routers.Task.list_tasks db).1 = ApiResult.ok rs)
    (h2 : e ∈ rs) : e.due_date = none := by
  have h0 : (Routers.Task.list_tasks db).1 = ApiResult.ok
      ((Cruds.Task.get_tasks_with_done db).map (fun r =>
        { id := r.1, title := r.2.1, done := r.2.2, due_date := none })) := rfl
  rw [h0] at h1
  have hrs : rs = (Cruds.Task.get_tasks_with_done db).map (fun r =>
      { id := r.1, title := r.2.1, done := r.2.2, due_date := none }) :=
    (ApiResult.ok.inj h1).symm
  subst hrs
  rcases List.mem_map.mp h2 with ⟨r, _, he⟩
  rw [← he]

/-- Claim C8 amended-claim witness: the listing of a concrete state whose
single task stores a due date. -/
theorem c8_listing_due_date_none_witness :
    (Routers.Task.list_tasks
        (run [Op.postTask { title := some "a", due_date := some "2024-12-01" }])).1 =
      ApiResult.ok [{ id := 1, title := some "a", done := false, due_date := none }] ∧
    ({ id := 1, title := some "a", done := false, due_date := none } :
        Schemas.Task).due_date = none := by
  refine ⟨by decide, ?_⟩
  exact c8_listing_due_date_none
    (run [Op.postTask { title := some "a", due_date := some "2024-12-01" }])
    [{ id := 1, title := some "a", done := false, due_date := none }]
    { id := 1, title := some "a", done := false, due_date := none }
    (by decide) (by decide)

/-! ## Shape of one API step -/

theorem create_done_ok_inv (db : DbState) (j : Nat) (r : Nat × DbState)
    (h : Cruds.Done.create_done db j = Except.ok r) :
    r = (j, { db with dones := db.dones ++ [j] }) ∧
      j ∈ taskIds db ∧ j ∉ db.dones := by
  unfold Cruds.Done.create_done at h
  split at h
  · exact absurd h (by simp)
  next hall =>
    split at h
    · exact absurd h (by simp)
    next hcon =>
      refine ⟨(Except.ok.inj h).symm, ?_, ?_⟩
      · by_contra hnot
        exact hall ((tasks_all_ne_iff db j).mpr hnot)
      · intro hmem
        exact hcon ((dones_contains_iff db j).mpr hmem)

theorem dones_step_postTask (db : DbState) (b : TaskBodyRaw) :
    (step db (Op.postTask b)).dones = db.dones := by
  cases hv : validate_task_body b <;>
    simp [step, handle_post_tasks, hv, Routers.Task.create_task,
      Cruds.Task.create_task]

theorem tasks_step_postTask (db : DbState) (b : TaskBodyRaw) :
    (step db (Op.postTask b)).tasks = db.tasks ∨
    ∃ tb, validate_task_body b = some tb ∧
      (step db (Op.postTask b)).tasks =
        db.tasks ++
          [{ id := db.nextId, title := tb.title, due_date := tb.due_date }] ∧
      (step db (Op.postTask b)).nextId = db.nextId + 1 := by
  cases hv : validate_task_body b with
  | none =>
    left
    simp [step, handle_post_tasks, hv]
  | some tb =>
    right
    refine ⟨tb, rfl, ?_, ?_⟩ <;>
      simp [step, handle_post_tasks, hv, Routers.Task.create_task,
        Cruds.Task.create_task]

theorem step_putTask_pre (db : DbState) (j : Nat) (b : TaskBodyRaw) :
    (step db (Op.putTask j b)).dones = db.dones ∧
    (step db (Op.putTask j b)).nextId = db.nextId ∧
    taskIds (step db (Op.putTask j b)) = taskIds db ∧
    (∀ u ∈ (step db (Op.putTask j b)).tasks, ∃ v ∈ db.tasks, u.id = v.id) := by
  cases hv : validate_task_body b with
  | none =>
    refine ⟨?_, ?_, ?_, ?_⟩
    · simp [step, handle_put_task, hv]
    · simp [step, handle_put_task, hv]
    · simp [step, handle_put_task, hv]
    · intro u hu
      simp only [step, handle_put_task, hv] at hu
      exact ⟨u, hu, rfl⟩
  | some tb =>
    cases hg : Cruds.Task.get_task db j with
    | none =>
      refine ⟨?_, ?_, ?_, ?_⟩
      · simp [step, handle_put_task, hv, Routers.Task.update_task, hg]
      · simp [step, handle_put_task, hv, Routers.Task.update_task, hg]
      · simp [step, handle_put_task, hv, Routers.Task.update_task, hg]
      · intro u hu
        simp only [step, handle_put_task, hv, Routers.Task.update_task, hg] at hu
        exact ⟨u, hu, rfl⟩
    | some t =>
      refine ⟨?_, ?_, ?_, ?_⟩
      · simp [step, handle_put_task, hv, Routers.Task.update_task, hg,
          Cruds.Task.update_task]
      · simp [step, handle_put_task, hv, Routers.Task.update_task, hg,
          Cruds.Task.update_task]
      · simp only [step, handle_put_task, hv, Routers.Task.update_task, hg,
          Cruds.Task.update_task, taskIds, List.map_map]
        apply List.map_congr_left
        intro u hu
        by_cases hut : u.id = t.id
        · simp [Function.comp, hut]
        · simp [Function.comp, hut]
      · intro u hu
        simp only [step, handle_put_task, hv, Routers.Task.update_task, hg,
          Cruds.Task.update_task] at hu
        rcases List.mem_map.mp hu with ⟨v, hv2, he⟩
        refine ⟨v, hv2, ?_⟩
        rw [← he]
        by_cases hvt : v.id = t.id
        · simp [hvt]
        · simp [hvt]

theorem step_deleteTask_none (db : DbState) (j : Nat)
    (hg : Cruds.Task.get_task db j = none) :
    step db (Op.deleteTask j) = db := by
  simp [step, Routers.Task.delete_task, hg]

theorem step_deleteTask_some (db : DbState) (j : Nat) (t : Models.Task)
    (hg : Cruds.Task.get_task db j = some t) :
    step db (Op.deleteTask j) =
      { db with
         tasks := db.tasks.filter (fun u => u.id != t.id),
         dones := db.dones.filter (fun d => d != t.id) } := by
  simp [step, Routers.Task.delete_task, hg, Cruds.Task.delete_task]

theorem step_markDone_shape (db : DbState) (j : Nat) :
    step db (Op.markDone j) = db ∨
    (step db (Op.markDone j) = { db with dones := db.dones ++ [j] } ∧
      j ∈ taskIds db ∧ j ∉ db.dones) := by
  cases hg : Cruds.Done.get_done db j with
  | some d =>
    left
    simp [step, Routers.Done.mark_task_as_done, hg]
  | none =>
    cases hc : Cruds.Done.create_done db j with
    | error e =>
      left
      simp [step, Routers.Done.mark_task_as_done, hg, hc]
    | ok r =>
      rcases create_done_ok_inv db j r hc with ⟨hr, hmem, hnot⟩
      right
      refine ⟨?_, hmem, hnot⟩
      simp [step, Routers.Done.mark_task_as_done, hg, hc, hr]

theorem step_unmarkDone_shape (db : DbState) (j : Nat) :
    step db (Op.unmarkDone j) = db ∨
    (step db (Op.unmarkDone j) =
      { db with dones := db.dones.filter (fun d => d != j) } ∧ j ∈ db.dones) := by
  cases hg : Cruds.Done.get_done db j with
  | none =>
    left
    simp [step, Routers.Done.remove_task_as_done, hg]
  | some d =>
    rcases get_done_eq_some db j d hg with ⟨hd, hmem⟩
    right
    refine ⟨?_, hmem⟩
    simp [step, Routers.Done.remove_task_as_done, hg, Cruds.Done.delete_done, hd]

theorem nextId_le_step (db : DbState) (op : Op) :
    db.nextId ≤ (step db op).nextId := by
  cases op with
  | postTask b =>
    cases hv : validate_task_body b with
    | none =>
      simp [step, handle_post_tasks, hv]
    | some tb =>
      simp only [step, handle_post_tasks, hv, Routers.Task.create_task,
        Cruds.Task.create_task]
      omega
  | putTask j b => rw [(step_putTask_pre db j b).2.1]
  | deleteTask j =>
    cases hg : Cruds.Task.get_task db j with
    | none => rw [step_deleteTask_none db j hg]
    | some t => rw [step_deleteTask_some db j t hg]
  | markDone j =>
    rcases step_markDone_shape db j with h | ⟨h, _, _⟩ <;> rw [h]
  | unmarkDone j =>
    rcases step_unmarkDone_shape db j with h | ⟨h, _⟩ <;> rw [h]

/-- How one API call changes whether id `i` has a dones row: a successful
mark-done of `i` sets it; a successful unmark-done or task deletion of `i`
clears it; every other call leaves it alone. -/
theorem mem_dones_step (db : DbState) (op : Op) (i : Nat) :
    i ∈ (step db op).dones ↔
      (succMark db op i = true ∨
        (i ∈ db.dones ∧ succUnmark db op i = false ∧
          succDeleteTask db op i = false)) := by
  cases op with
  | postTask b =>
    rw [dones_step_postTask]
    simp [succMark, succUnmark, succDeleteTask]
  | putTask j b =>
    rw [(step_putTask_pre db j b).1]
    simp [succMark, succUnmark, succDeleteTask]
  | deleteTask j =>
    cases hg : Cruds.Task.get_task db j with
    | none =>
      rw [step_deleteTask_none db j hg]
      have hs : succDeleteTask db (Op.deleteTask j) i = false := by
        simp [succDeleteTask, Routers.Task.delete_task, hg,
          ApiResult.statusCode]
      simp [succMark, succUnmark, hs]
    | some t =>
      rcases get_task_eq_some db j t hg with ⟨hid, _⟩
      rw [step_deleteTask_some db j t hg]
      have hs : succDeleteTask db (Op.deleteTask j) i = (j == i) := by
        simp [succDeleteTask, Routers.Task.delete_task, hg,
          ApiResult.statusCode]
      simp only [List.mem_filter, bne_iff_ne, ne_eq, succMark, succUnmark, hs,
        hid, Bool.false_eq_true, false_or, true_and, beq_eq_false_iff_ne]
      constructor
      · rintro ⟨h1, h2⟩
        exact ⟨h1, fun he => h2 he.symm⟩
      · rintro ⟨h1, h2⟩
        exact ⟨h1, fun he => h2 he.symm⟩
  | markDone j =>
    cases hg : Cruds.Done.get_done db j with
    | some d =>
      have hstep : step db (Op.markDone j) = db := by
        simp [step, Routers.Done.mark_task_as_done, hg]
      have hsm : succMark db (Op.markDone j) i = false := by
        simp [succMark, Routers.Done.mark_task_as_done, hg,
          ApiResult.statusCode]
      rw [hstep]
      simp [succUnmark, succDeleteTask, hsm]
    | none =>
      cases hc : Cruds.Done.create_done db j with
      | error e =>
        have hstep : step db (Op.markDone j) = db := by
          simp [step, Routers.Done.mark_task_as_done, hg, hc]
        have hsm : succMark db (Op.markDone j) i = false := by
          simp [succMark, Routers.Done.mark_task_as_done, hg, hc,
            ApiResult.statusCode]
        rw [hstep]
        simp [succUnmark, succDeleteTask, hsm]
      | ok r =>
        rcases create_done_ok_inv db j r hc with ⟨hr, hmem, hnot⟩
        have hstep : step db (Op.markDone j) =
            { db with dones := db.dones ++ [j] } := by
          simp [step, Routers.Done.mark_task_as_done, hg, hc, hr]
        have hsm : succMark db (Op.markDone j) i = (j == i) := by
          simp [succMark, Routers.Done.mark_task_as_done, hg, hc,
            ApiResult.statusCode]
        rw [hstep]
        simp only [List.mem_append, List.mem_singleton, succUnmark,
          succDeleteTask, hsm, beq_iff_eq]
        constructor
        · intro hx
          rcases hx with h1 | h2
          · exact Or.inr ⟨h1, trivial, trivial⟩
          · exact Or.inl h2.symm
        · intro hx
          rcases hx with h1 | ⟨h2, h3, h4⟩
          · exact Or.inr h1.symm
          · exact Or.inl h2
  | unmarkDone j =>
    cases hg : Cruds.Done.get_done db j with
    | none =>
      have hstep : step db (Op.unmarkDone j) = db := by
        simp [step, Routers.Done.remove_task_as_done, hg]
      have hsu : succUnmark db (Op.unmarkDone j) i = false := by
        simp [succUnmark, Routers.Done.remove_task_as_done, hg,
          ApiResult.statusCode]
      rw [hstep]
      simp [succMark, succDeleteTask, hsu]
    | some d =>
      rcases get_done_eq_some db j d hg with ⟨hd, hmem⟩
      have hstep : step db (Op.unmarkDone j) =
          { db with dones := db.dones.filter (fun x => x != j) } := by
        simp [step, Routers.Done.remove_task_as_done, hg,
          Cruds.Done.delete_done, hd]
      have hsu : succUnmark db (Op.unmarkDone j) i = (j == i) := by
        simp [succUnmark, Routers.Done.remove_task_as_done, hg,
          ApiResult.statusCode]
      rw [hstep]
      simp only [List.mem_filter, bne_iff_ne, ne_eq, succMark, succDeleteTask,
        hsu, Bool.false_eq_true, false_or, beq_eq_false_iff_ne, and_true]
      constructor
      · rintro ⟨h1, h2⟩
        exact ⟨h1, fun he => h2 he.symm⟩
      · rintro ⟨h1, h2⟩
        exact ⟨h1, fun he => h2 he.symm⟩

/-! ## The reachable-state invariant -/

/-- Invariant of every reachable database state: dones ids are distinct,
every dones id references an existing task (the foreign key), task ids are
distinct (primary key), and all task ids are below the sequence value. -/
def Inv (db : DbState) : Prop :=
  db.dones.Nodup ∧
  (∀ d ∈ db.dones, d ∈ taskIds db) ∧
  (taskIds db).Nodup ∧
  (∀ t ∈ db.tasks, t.id < db.nextId)

theorem inv_initState : Inv initState := by
  refine ⟨List.nodup_nil, ?_, List.nodup_nil, ?_⟩ <;> intro x hx <;> cases hx

theorem inv_step (db : DbState) (op : Op) (h : Inv db) : Inv (step db op) := by
  obtain ⟨h1, h2, h3, h4⟩ := h
  cases op with
  | postTask b =>
    rcases tasks_step_postTask db b with ht | ⟨tb, hv, ht, hn⟩
    · have hd := dones_step_postTask db b
      have hids : taskIds (step db (Op.postTask b)) = taskIds db := by
        unfold taskIds
        rw [ht]
      have hnx := nextId_le_step db (Op.postTask b)
      refine ⟨hd ▸ h1, ?_, hids ▸ h3, ?_⟩
      · intro d hd2
        rw [hd] at hd2
        rw [hids]
        exact h2 d hd2
      · intro t ht2
        rw [ht] at ht2
        exact lt_of_lt_of_le (h4 t ht2) hnx
    · have hd := dones_step_postTask db b
      have hids : taskIds (step db (Op.postTask b)) =
          taskIds db ++ [db.nextId] := by
        unfold taskIds
        rw [ht]
        simp
      refine ⟨hd ▸ h1, ?_, ?_, ?_⟩
      · intro d hd2
        rw [hd] at hd2
        rw [hids]
        exact List.mem_append_left _ (h2 d hd2)
      · rw [hids]
        rw [List.nodup_append]
        refine ⟨h3, List.nodup_singleton _, ?_⟩
        intro a ha hb
        rw [List.mem_singleton] at hb
        subst hb
        rcases List.mem_map.mp ha with ⟨u, hu, he⟩
        exact absurd (he ▸ h4 u hu) (lt_irrefl _)
      · intro t ht2
        rw [ht] at ht2
        rw [hn]
        rcases List.mem_append.mp ht2 with hold | hnew
        · exact lt_of_lt_of_le (h4 t hold) (Nat.le_succ _)
        · rw [List.mem_singleton] at hnew
          subst hnew
          exact Nat.lt_succ_self _
  | putTask j b =>
    obtain ⟨hd, hn, hids, hsub⟩ := step_putTask_pre db j b
    refine ⟨hd ▸ h1, ?_, hids ▸ h3, ?_⟩
    · intro d hd2
      rw [hd] at hd2
      rw [hids]
      exact h2 d hd2
    · intro t ht2
      rcases hsub t ht2 with ⟨v, hv, he⟩
      rw [hn, he]
      exact h4 v hv
  | deleteTask j =>
    cases hg : Cruds.Task.get_task db j with
    | none =>
      rw [step_deleteTask_none db j hg]
      exact ⟨h1, h2, h3, h4⟩
    | some t =>
      rw [step_deleteTask_some db j t hg]
      refine ⟨List.Nodup.filter _ h1, ?_, ?_, ?_⟩
      · intro d hd2
        rw [List.mem_filter] at hd2
        obtain ⟨hd3, hd4⟩ := hd2
        rw [bne_iff_ne] at hd4
        rcases List.mem_map.mp (h2 d hd3) with ⟨u, hu, he⟩
        apply List.mem_map.mpr
        refine ⟨u, ?_, he⟩
        rw [List.mem_filter]
        refine ⟨hu, ?_⟩
        rw [bne_iff_ne]
        intro hue
        exact hd4 (he ▸ hue ▸ rfl)
      · have hsub : (db.tasks.filter (fun u => u.id != t.id)).Sublist db.tasks :=
          List.filter_sublist db.tasks
        exact List.Nodup.sublist (List.Sublist.map Models.Task.id hsub) h3
      · intro u hu
        rw [List.mem_filter] at hu
        exact h4 u hu.1
  | markDone j =>
    rcases step_markDone_shape db j with hs | ⟨hs, hmem, hnot⟩
    · rw [hs]
      exact ⟨h1, h2, h3, h4⟩
    · rw [hs]
      refine ⟨?_, ?_, h3, h4⟩
      · rw [List.nodup_append]
        refine ⟨h1, List.nodup_singleton _, ?_⟩
        intro a ha hb
        rw [List.mem_singleton] at hb
        subst hb
        exact hnot ha
      · intro d hd2
        rcases List.mem_append.mp hd2 with hold | hnew
        · exact h2 d hold
        · rw [List.mem_singleton] at hnew
          subst hnew
          exact hmem
  | unmarkDone j =>
    rcases step_unmarkDone_shape db j with hs | ⟨hs, hmem⟩
    · rw [hs]
      exact ⟨h1, h2, h3, h4⟩
    · rw [hs]
      refine ⟨List.Nodup.filter _ h1, ?_, h3, h4⟩
      intro d hd2
      rw [List.mem_filter] at hd2
      exact h2 d hd2.1

theorem inv_runFrom (db : DbState) (ops : List Op) (h : Inv db) :
    Inv (runFrom db ops) := by
  induction ops generalizing db with
  | nil => exact h
  | cons op rest ih => exact ih (step db op) (inv_step db op h)

theorem inv_run (ops : List Op) : Inv (run ops) :=
  inv_runFrom initState ops inv_initState

/-! ## Task ids are never reused -/

theorem lt_nextId_step (db : DbState) (op : Op)
    (h : ∀ t ∈ db.tasks, t.id < db.nextId) :
    ∀ t ∈ (step db op).tasks, t.id < (step db op).nextId := by
  cases op with
  | postTask b =>
    rcases tasks_step_postTask db b with ht | ⟨tb, hv, ht, hn⟩
    · intro t ht2
      rw [ht] at ht2
      exact lt_of_lt_of_le (h t ht2) (nextId_le_step db (Op.postTask b))
    · intro t ht2
      rw [ht] at ht2
      rw [hn]
      rcases List.mem_append.mp ht2 with hold | hnew
      · exact lt_of_lt_of_le (h t hold) (Nat.le_succ _)
      · rw [List.mem_singleton] at hnew
        subst hnew
        exact Nat.lt_succ_self _
  | putTask j b =>
    obtain ⟨_, hn, _, hsub⟩ := step_putTask_pre db j b
    intro t ht2
    rcases hsub t ht2 with ⟨v, hv, he⟩
    rw [hn, he]
    exact h v hv
  | deleteTask j =>
    cases hg : Cruds.Task.get_task db j with
    | none =>
      rw [step_deleteTask_none db j hg]
      exact h
    | some t =>
      rw [step_deleteTask_some db j t hg]
      intro u hu
      rw [List.mem_filter] at hu
      exact h u hu.1
  | markDone j =>
    rcases step_markDone_shape db j with hs | ⟨hs, _, _⟩ <;> rw [hs] <;> exact h
  | unmarkDone j =>
    rcases step_unmarkDone_shape db j with hs | ⟨hs, _⟩ <;> rw [hs] <;> exact h

theorem notMem_taskIds_step (db : DbState) (op : Op) (i : Nat)
    (hnot : i ∉ taskIds db) (hlt : i < db.nextId) :
    i ∉ taskIds (step db op) := by
  cases op with
  | postTask b =>
    rcases tasks_step_postTask db b with ht | ⟨tb, hv, ht, hn⟩
    · unfold taskIds
      rw [ht]
      exact hnot
    · unfold taskIds
      rw [ht]
      intro hmem
      rw [List.map_append] at hmem
      rcases List.mem_append.mp hmem with hold | hnew
      · exact hnot hold
      · simp only [List.map_cons, List.map_nil, List.mem_singleton] at hnew
        exact absurd (hnew ▸ hlt) (lt_irrefl _)
  | putTask j b =>
    rw [(step_putTask_pre db j b).2.2.1]
    exact hnot
  | deleteTask j =>
    cases hg : Cruds.Task.get_task db j with
    | none =>
      rw [step_deleteTask_none db j hg]
      exact hnot
    | some t =>
      rw [step_deleteTask_some db j t hg]
      intro hmem
      rcases List.mem_map.mp hmem with ⟨u, hu, he⟩
      rw [List.mem_filter] at hu
      exact hnot (List.mem_map.mpr ⟨u, hu.1, he⟩)
  | markDone j =>
    rcases step_markDone_shape db j with hs | ⟨hs, _, _⟩ <;> rw [hs] <;>
      exact hnot
  | unmarkDone j =>
    rcases step_unmarkDone_shape db j with hs | ⟨hs, _⟩ <;> rw [hs] <;>
      exact hnot

/-- A task id below the sequence value that is absent stays absent: the
SERIAL sequence only grows, so a deleted id is never handed out again. -/
theorem id_never_returns (ops : List Op) (db : DbState) (i : Nat)
    (hnot : i ∉ taskIds db) (hlt : i < db.nextId) :
    i ∉ taskIds (runFrom db ops) := by
  induction ops generalizing db with
  | nil => exact hnot
  | cons op rest ih =>
    exact ih (step db op) (notMem_taskIds_step db op i hnot hlt)
      (lt_of_lt_of_le hlt (nextId_le_step db op))

/-- If id `i` still names a task at the end of the run, no task deletion of
`i` ever succeeded along the run. -/
theorem noSuccDeleteTask_of_mem (ops : List Op) (db : DbState) (i : Nat)
    (hinv : ∀ t ∈ db.tasks, t.id < db.nextId)
    (hmem : i ∈ taskIds (runFrom db ops)) :
    noSuccDeleteTask db ops i = true := by
  induction ops generalizing db with
  | nil => rfl
  | cons op rest ih =>
    have hrun : runFrom db (op :: rest) = runFrom (step db op) rest := rfl
    rw [hrun] at hmem
    have htail := ih (step db op) (lt_nextId_step db op hinv) hmem
    show (!succDeleteTask db op i && noSuccDeleteTask (step db op) rest i) = true
    rw [htail, Bool.and_true, Bool.not_eq_true']
    cases op with
    | postTask b => rfl
    | putTask j b => rfl
    | markDone j => rfl
    | unmarkDone j => rfl
    | deleteTask j =>
      by_contra hcc
      rw [Bool.not_eq_false] at hcc
      simp only [succDeleteTask, Bool.and_eq_true, beq_iff_eq] at hcc
      obtain ⟨hji, hstatus⟩ := hcc
      subst hji
      cases hg : Cruds.Task.get_task db j with
      | none =>
        rw [show (Routers.Task.delete_task db j).1 =
            ApiResult.httpError 404 "Task not found" by
          simp [Routers.Task.delete_task, hg]] at hstatus
        exact absurd hstatus (by simp [ApiResult.statusCode])
      | some t =>
        rcases get_task_eq_some db j t hg with ⟨hid, htm⟩
        have hgone : j ∉ taskIds (step db (Op.deleteTask j)) := by
          rw [step_deleteTask_some db j t hg]
          intro hmem2
          rcases List.mem_map.mp hmem2 with ⟨u, hu, he⟩
          rw [List.mem_filter, bne_iff_ne] at hu
          exact hu.2 (by rw [he, hid])
        have hlt : j < (step db (Op.deleteTask j)).nextId := by
          rw [step_deleteTask_some db j t hg]
          show j < db.nextId
          have := hinv t htm
          rw [hid] at this
          exact this
        exact id_never_returns rest (step db (Op.deleteTask j)) j hgone hlt hmem

/-! ## The trace characterization of the done flag -/

/-- Membership of id `i` among the dones rows after a run, characterized by
the successful mark/unmark/delete calls of the run. -/
theorem mem_dones_runFrom (ops : List Op) (db : DbState) (i : Nat) :
    i ∈ (runFrom db ops).dones ↔
      (markedClean db ops i = true ∨
        (i ∈ db.dones ∧ noSuccUnmark db ops i = true ∧
          noSuccDeleteTask db ops i = true)) := by
  induction ops generalizing db with
  | nil =>
    simp [runFrom, markedClean, noSuccUnmark, noSuccDeleteTask]
  | cons op rest ih =>
    have h0 : runFrom db (op :: rest) = runFrom (step db op) rest := rfl
    rw [h0, ih (step db op), mem_dones_step db op i]
    simp only [markedClean, noSuccUnmark, noSuccDeleteTask, Bool.or_eq_true,
      Bool.and_eq_true, Bool.not_eq_true']
    tauto

/-- With no successful deletion of `i` in the run, the spec's wording (a
successful mark with no later successful unmark) coincides with the
deletion-aware version. -/
theorem markedClean_eq_markedNotUnmarked (ops : List Op) (db : DbState)
    (i : Nat) (h : noSuccDeleteTask db ops i = true) :
    markedClean db ops i = markedNotUnmarked db ops i := by
  induction ops generalizing db with
  | nil => rfl
  | cons op rest ih =>
    have h0 : noSuccDeleteTask db (op :: rest) i =
        (!succDeleteTask db op i && noSuccDeleteTask (step db op) rest i) := rfl
    rw [h0, Bool.and_eq_true] at h
    simp only [markedClean, markedNotUnmarked, ih (step db op) h.2, h.2]
    simp

/-! ## The listing query -/

theorem filter_beq_nodup (l : List Nat) (hnd : l.Nodup) (a : Nat) :
    l.filter (fun d => d == a) = if a ∈ l then [a] else [] := by
  induction l with
  | nil => simp
  | cons b l ih =>
    rcases List.nodup_cons.mp hnd with ⟨hb, hl⟩
    rw [List.filter_cons]
    by_cases hba : b = a
    · subst hba
      have hfl : l.filter (fun d => d == b) = [] := by
        apply List.filter_eq_nil_iff.mpr
        intro x hx
        simp only [beq_iff_eq]
        intro he
        exact hb (he ▸ hx)
      simp [hfl]
    · have hcond : (b == a) = false := by
        simp only [beq_eq_false_iff_ne, ne_eq]
        exact hba
      rw [hcond]
      simp only [Bool.false_eq_true, if_false, ih hl]
      have hmem : (a ∈ l) ↔ (a ∈ b :: l) := by
        constructor
        · exact fun h => List.mem_cons_of_mem b h
        · intro h
          rcases List.mem_cons.mp h with h1 | h2
          · exact absurd h1.symm hba
          · exact h2
      exact if_congr hmem rfl rfl

/-- With distinct dones ids (their primary key), the left outer join yields
exactly one row per task, its done flag true exactly when the dones row
exists. -/
theorem get_tasks_with_done_eq (db : DbState) (hnd : db.dones.Nodup) :
    Cruds.Task.get_tasks_with_done db =
      db.tasks.map (fun t => (t.id, t.title, decide (t.id ∈ db.dones))) := by
  unfold Cruds.Task.get_tasks_with_done
  suffices h : ∀ ts : List Models.Task,
      (ts.flatMap (fun t =>
        match db.dones.filter (fun d => d == t.id) with
        | [] => [(t.id, t.title, false)]
        | ms => ms.map (fun _ => (t.id, t.title, true)))) =
      ts.map (fun t => (t.id, t.title, decide (t.id ∈ db.dones))) by
    exact h db.tasks
  intro ts
  induction ts with
  | nil => rfl
  | cons t ts ih =>
    rw [List.flatMap_cons, List.map_cons, ih]
    rw [filter_beq_nodup db.dones hnd t.id]
    by_cases hm : t.id ∈ db.dones
    · simp [hm]
    · simp [hm]

/-! ## Claims C1 and C4 -/

/-- Claim C1: after any sequence of API calls, the GET /tasks join returns
one row per Task row, in table order, with the done flag true exactly when
a dones row with that id exists; and for a task still present at the end,
its row carries done = true exactly when some mark-done call of the run
succeeded for its id with no later successful unmark-done call. -/
theorem c1_listing_done_flag (ops : List Op) (t : Models.Task)
    (ht : t ∈ (run ops).tasks) :
    Cruds.Task.get_tasks_with_done (run ops) =
      (run ops).tasks.map
        (fun u => (u.id, u.title, decide (u.id ∈ (run ops).dones))) ∧
    ((t.id, t.title, true) ∈ Cruds.Task.get_tasks_with_done (run ops) ↔
      markedNotUnmarked initState ops t.id = true) := by
  have hinv := inv_run ops
  have hlist := get_tasks_with_done_eq (run ops) hinv.1
  refine ⟨hlist, ?_⟩
  rw [hlist]
  have hmemid : t.id ∈ taskIds (run ops) := List.mem_map.mpr ⟨t, ht, rfl⟩
  have hinit : ∀ u ∈ initState.tasks, u.id < initState.nextId := by
    intro u hu
    cases hu
  have hnd : noSuccDeleteTask initState ops t.id = true :=
    noSuccDeleteTask_of_mem ops initState t.id hinit hmemid
  have hdones : t.id ∈ (run ops).dones ↔
      markedNotUnmarked initState ops t.id = true := by
    have h0 : run ops = runFrom initState ops := rfl
    rw [h0, mem_dones_runFrom ops initState t.id,
      markedClean_eq_markedNotUnmarked ops initState t.id hnd]
    simp [initState]
  constructor
  · intro hmm
    rcases List.mem_map.mp hmm with ⟨u, hu, he⟩
    rw [Prod.mk.injEq, Prod.mk.injEq] at he
    obtain ⟨h1, h2, h3⟩ := he
    rw [h1] at h3
    exact hdones.mp (of_decide_eq_true h3)
  · intro hmk
    have hd : t.id ∈ (run ops).dones := hdones.mpr hmk
    apply List.mem_map.mpr
    refine ⟨t, ht, ?_⟩
    rw [decide_eq_true hd]

/-- Claim C1 witness: one created task, then marked done. -/
theorem c1_listing_done_flag_witness :
    ({ id := 1, title := some "a", due_date := none } : Models.Task) ∈
      (run [Op.postTask { title := some "a", due_date := none },
            Op.markDone 1]).tasks ∧
    ((1, some "a", true) ∈ Cruds.Task.get_tasks_with_done
        (run [Op.postTask { title := some "a", due_date := none },
              Op.markDone 1]) ↔
      markedNotUnmarked initState
        [Op.postTask { title := some "a", due_date := none },
         Op.markDone 1] 1 = true) :=
  ⟨by decide,
   (c1_listing_done_flag
     [Op.postTask { title := some "a", due_date := none }, Op.markDone 1]
     { id := 1, title := some "a", due_date := none } (by decide)).2⟩

/-- Claim C4: in every state reachable through the API, each dones row
references an existing Task row; and deleting an existing Task removes its
dones row through the cascade, so an unmark-done right after the deletion
answers 404 "Done not found" and changes nothing. -/
theorem c4_done_foreign_key_cascade (ops : List Op) (d : Nat)
    (hd : d ∈ (run ops).dones) (db : DbState) (task_id : Nat)
    (t : Models.Task) (ht : Cruds.Task.get_task db task_id = some t) :
    d ∈ taskIds (run ops) ∧
    (Routers.Task.delete_task db task_id).1 = ApiResult.ok () ∧
    Cruds.Done.get_done (Routers.Task.delete_task db task_id).2 task_id =
      none ∧
    (Routers.Done.remove_task_as_done
        (Routers.Task.delete_task db task_id).2 task_id).1 =
      ApiResult.httpError 404 "Done not found" ∧
    (Routers.Done.remove_task_as_done
        (Routers.Task.delete_task db task_id).2 task_id).2 =
      (Routers.Task.delete_task db task_id).2 := by
  have hinv := inv_run ops
  rcases get_task_eq_some db task_id t ht with ⟨hid, _⟩
  have hrouter : Routers.Task.delete_task db task_id =
      (ApiResult.ok (), Cruds.Task.delete_task db t) := by
    unfold Routers.Task.delete_task
    rw [ht]
  have hnone :
      Cruds.Done.get_done (Cruds.Task.delete_task db t) task_id = none := by
    apply (get_done_eq_none_iff _ _).mpr
    intro hmem
    unfold Cruds.Task.delete_task at hmem
    simp only [List.mem_filter, bne_iff_ne] at hmem
    exact hmem.2 hid.symm
  have hsecond : Routers.Done.remove_task_as_done
      (Cruds.Task.delete_task db t) task_id =
      (ApiResult.httpError 404 "Done not found",
       Cruds.Task.delete_task db t) := by
    unfold Routers.Done.remove_task_as_done
    rw [hnone]
  refine ⟨hinv.2.1 d hd, ?_, ?_, ?_, ?_⟩
  · rw [hrouter]
  · rw [hrouter]
    exact hnone
  · rw [hrouter]
    show (Routers.Done.remove_task_as_done
        (Cruds.Task.delete_task db t) task_id).1 =
      ApiResult.httpError 404 "Done not found"
    rw [hsecond]
  · rw [hrouter]
    show (Routers.Done.remove_task_as_done
        (Cruds.Task.delete_task db t) task_id).2 =
      Cruds.Task.delete_task db t
    rw [hsecond]

/-- Claim C4 witness: a reachable state with a dones row, and a concrete
delete-then-unmark on a one-task state. -/
theorem c4_done_foreign_key_cascade_witness :
    1 ∈ (run [Op.postTask { title := some "a", due_date := none },
              Op.markDone 1]).dones ∧
    Cruds.Task.get_task
      (run [Op.postTask { title := some "b", due_date := none },
            Op.markDone 1]) 1 =
      some { id := 1, title := some "b", due_date := none } ∧
    1 ∈ taskIds (run [Op.postTask { title := some "a", due_date := none },
                      Op.markDone 1]) ∧
    (Routers.Done.remove_task_as_done
        (Routers.Task.delete_task
          (run [Op.postTask { title := some "b", due_date := none },
                Op.markDone 1]) 1).2 1).1 =
      ApiResult.httpError 404 "Done not found" := by
  have h := c4_done_foreign_key_cascade
    [Op.postTask { title := some "a", due_date := none }, Op.markDone 1] 1
    (by decide)
    (run [Op.postTask { title := some "b", due_date := none }, Op.markDone 1])
    1 { id := 1, title := some "b", due_date := none } (by decide)
  exact ⟨by decide, by decide, h.1, h.2.2.2.1⟩

end ToDoApp
